import Mathlib

/-!
Shallow embedding of the provider-selection and failover logic of the
ZombieCoder smart editor: the `MCPManager` component
(`src/components/mcp-manager.tsx`) and the `ModelDetector` component
(`src/unnamed/part_002`), together forming the Provider Selection &
Failover Engine described by the specification.

Pure data and the deterministic control flow of `testConnection`,
`scanProviders`, `connectToProvider`, `disconnectProvider`, the periodic
health-check effect, `testModel`, `scanModels`, and the score formula are
translated directly from the TypeScript source.  Asynchrony is embedded by
passing the underlying network behaviour of each probe (delay, response,
random draws) as explicit data; the stable JavaScript `Array.prototype.sort`
is embedded as `List.insertionSort` with the `≤`-relation of the comparator.
-/

namespace ZombieCoder

/-! ## Data model: MCP providers (`src/components/mcp-manager.tsx`) -/

/-- `MCPProvider.status` field: `"connected" | "disconnected" | "connecting" | "error"`. -/
inductive MCPStatus
  | connected
  | disconnected
  | connecting
  | error
  deriving Repr, DecidableEq, BEq

/-- `MCPProvider.type` field: `"local" | "remote" | "cloud"`. -/
inductive ProviderType
  | localType
  | remote
  | cloud
  deriving Repr, DecidableEq, BEq

/-- The `MCPProvider` interface.  `lastPing : Date` is embedded as a `Nat`
timestamp. -/
structure MCPProvider where
  id : String
  name : String
  type : ProviderType
  endpoint : String
  status : MCPStatus
  capabilities : List String
  latency : Nat
  lastPing : Nat
  version : String
  priority : Nat
  fallbackOrder : Nat
  deriving Repr, DecidableEq, BEq

/-- Outcome of one `testConnection` invocation: the boolean it returns,
the measured latency `Date.now() - startTime`, and the `new Date()`
timestamp it stores into `lastPing`. -/
structure ProbeR where
  ok : Bool
  latency : Nat
  time : Nat
  deriving Repr, DecidableEq

/-- Component state of `MCPManager` relevant to selection: the `providers`
list and the `activeProvider` handle. -/
structure MCPState where
  providers : List MCPProvider
  activeProvider : Option MCPProvider
  deriving Repr, DecidableEq

/-! ## testConnection (`mcp-manager.tsx` lines 96-162)

The underlying `fetch` of a local provider is embedded as an
`Except String Bool` (`.error` = the fetch rejected, e.g. network failure
or abort; `.ok b` = it resolved with `response.ok = b`).  The cloud
branch draw `Math.random() > 0.3` is the `cloudDraw` argument.  The
whole body sits in a `try`/`catch`; embedding the function into `Except`
makes the "never throws to the caller" contract a provable statement:
every control path of the source ends in a plain `return`, so the
embedding always yields `Except.ok`. -/

/-- Result of `testConnection`: the status written for the probed provider
and the boolean returned to the caller. -/
def testConnectionExc (p : MCPProvider) (fetchRes : Except String Bool)
    (cloudDraw : Bool) : Except String (MCPStatus × Bool) :=
  match p.type with
  | .localType =>
    match fetchRes with
    | .ok true => .ok (.connected, true)
    | .ok false => .ok (.error, false)
    | .error _ => .ok (.error, false)
  | .cloud =>
    if cloudDraw then .ok (.connected, true) else .ok (.error, false)
  | .remote => .ok (.error, false)

/-- The status/boolean pair `testConnection` produces (total form). -/
def testConnectionRes (p : MCPProvider) (fetchRes : Except String Bool)
    (cloudDraw : Bool) : MCPStatus × Bool :=
  match testConnectionExc p fetchRes cloudDraw with
  | .ok r => r
  | .error _ => (.error, false)

/-! ## Store updates performed by testConnection and the callers -/

/-- `setProviders(prev.map(p => p.id === id ? { ...p, status } : p))`. -/
def setStatusById (ps : List MCPProvider) (i : String) (st : MCPStatus) :
    List MCPProvider :=
  ps.map (fun p => if p.id = i then { p with status := st } else p)

/-- The by-id store update `testConnection` performs for the provider it
probed: on success `{ ...p, status: "connected", latency, lastPing }`,
on failure `{ ...p, status: "error", lastPing }`. -/
def applyProbeById (ps : List MCPProvider) (i : String) (r : ProbeR) :
    List MCPProvider :=
  ps.map (fun p =>
    if p.id = i then
      if r.ok then { p with status := .connected, latency := r.latency, lastPing := r.time }
      else { p with status := .error, lastPing := r.time }
    else p)

/-! ## scanProviders (`mcp-manager.tsx` lines 165-195)

`Promise.allSettled(providers.map(testConnection))` yields one settled
result per provider, in registry order; `testConnection` never rejects, so
every entry is fulfilled with its boolean.  The pass then filters the
(closure-captured) `providers` array by those booleans, sorts the
survivors by `a.priority - b.priority` (the stable JavaScript sort) and
takes the head. -/

/-- The comparator `(a, b) => a.priority - b.priority` as the relation
"keeps `a` no later than `b`". -/
def priorLE (a b : MCPProvider) : Prop := a.priority ≤ b.priority

instance : DecidableRel priorLE := fun a b => Nat.decLe a.priority b.priority

instance : IsTotal MCPProvider priorLE := ⟨fun a b => Nat.le_total a.priority b.priority⟩

instance : IsTrans MCPProvider priorLE := ⟨fun _ _ _ h h' => Nat.le_trans h h'⟩

/-- `providers.filter((_, index) => results[index] fulfilled with true)`:
the providers whose probe returned `true`, in registry order. -/
def connectedProviders (ps : List MCPProvider) (rs : List ProbeR) :
    List MCPProvider :=
  ((ps.zip rs).filter (fun pr => pr.2.ok)).map (fun pr => pr.1)

/-- The selection a `scanProviders` pass produces: head of the
priority-sorted list of connected providers, or `none`. -/
def scanProvidersSelect (ps : List MCPProvider) (rs : List ProbeR) :
    Option MCPProvider :=
  (List.insertionSort priorLE (connectedProviders ps rs)).head?

/-- The provider store after a `scanProviders` pass: statuses are first
reset to `"connecting"`, then each `testConnection` call applies its by-id
update. -/
def scanUpdate (ps : List MCPProvider) (rs : List ProbeR) :
    List MCPProvider :=
  (ps.zip rs).foldl (fun st pr => applyProbeById st pr.1.id pr.2)
    (ps.map (fun p => { p with status := MCPStatus.connecting }))

/-- One full `scanProviders` pass: the updated store and the new value of
`activeProvider` (set from the sorted connected list, or `null`). -/
def scanProvidersPass (ps : List MCPProvider) (rs : List ProbeR) :
    List MCPProvider × Option MCPProvider :=
  (scanUpdate ps rs, scanProvidersSelect ps rs)

/-! ## connectToProvider (`mcp-manager.tsx` lines 198-227) -/

/-- The comparator `(a, b) => a.fallbackOrder - b.fallbackOrder`. -/
def fbLE (a b : MCPProvider) : Prop := a.fallbackOrder ≤ b.fallbackOrder

instance : DecidableRel fbLE := fun a b => Nat.decLe a.fallbackOrder b.fallbackOrder

instance : IsTotal MCPProvider fbLE := ⟨fun a b => Nat.le_total a.fallbackOrder b.fallbackOrder⟩

instance : IsTrans MCPProvider fbLE := ⟨fun _ _ _ h h' => Nat.le_trans h h'⟩

/-- `providers.filter(p => p.id !== provider.id && p.status === "connected")
.sort((a, b) => a.fallbackOrder - b.fallbackOrder)` — computed over the
closure-captured (pre-call) provider list. -/
def fallbackCandidates (prev : List MCPProvider) (excludeId : String) :
    List MCPProvider :=
  List.insertionSort fbLE
    (prev.filter (fun p => decide (¬ p.id = excludeId ∧ p.status = MCPStatus.connected)))

/-- `connectToProvider(provider)`: mark it `"connecting"`, run
`testConnection` (outcome `r`), on success make it active; on failure,
with `autoFallback` on, switch to the best already-connected fallback if
one exists, otherwise leave `activeProvider` as it was. -/
def connectToProvider (s : MCPState) (p : MCPProvider) (r : ProbeR)
    (autoFallback : Bool) : MCPState :=
  let ps1 := setStatusById s.providers p.id .connecting
  let ps2 := applyProbeById ps1 p.id r
  if r.ok then
    { providers := ps2, activeProvider := some p }
  else if autoFallback then
    match (fallbackCandidates s.providers p.id).head? with
    | some fb => { providers := ps2, activeProvider := some fb }
    | none => { providers := ps2, activeProvider := s.activeProvider }
  else
    { providers := ps2, activeProvider := s.activeProvider }

/-! ## disconnectProvider (`mcp-manager.tsx` lines 230-241) -/

/-- `disconnectProvider(providerId)`: set the status of that provider to
`"disconnected"`; if it is the active provider, clear the selection. -/
def disconnectProvider (s : MCPState) (pid : String) : MCPState :=
  let ps := setStatusById s.providers pid .disconnected
  match s.activeProvider with
  | some a =>
    if a.id = pid then { providers := ps, activeProvider := none }
    else { providers := ps, activeProvider := some a }
  | none => { providers := ps, activeProvider := none }

/-! ## Periodic health check (`mcp-manager.tsx` lines 252-261)

`useEffect`: while `activeProvider` is non-null, every 30 s the effect
calls `testConnection(activeProvider)` and discards its boolean.  The only
state it touches is the record of the probed provider; `activeProvider` itself
is never written. -/

/-- One tick of the periodic health check, with the re-probe outcome `r`. -/
def healthCheckTick (s : MCPState) (r : ProbeR) : MCPState :=
  match s.activeProvider with
  | none => s
  | some a =>
    { providers := applyProbeById s.providers a.id r,
      activeProvider := some a }

/-! ## Data model: AI models (`src/unnamed/part_002`, ModelDetector) -/

/-- `AIModel.status`: `"available" | "loading" | "error" | "offline"`. -/
inductive ModelStatus
  | available
  | loading
  | error
  | offline
  deriving Repr, DecidableEq, BEq

/-- `AIModel.provider`:
`"ollama" | "lmstudio" | "zombiecoder" | "openai" | "anthropic" | "local"`. -/
inductive ModelProvider
  | ollama
  | lmstudio
  | zombiecoder
  | openai
  | anthropic
  | localModel
  deriving Repr, DecidableEq, BEq

/-- The `ModelCapabilities` interface. -/
structure ModelCapabilities where
  textGeneration : Bool
  codeCompletion : Bool
  translation : Bool
  bengaliSupport : Bool
  voiceProcessing : Bool
  imageAnalysis : Bool
  reasoning : Bool
  deriving Repr, DecidableEq

/-- The `ModelPerformance` interface; `lastBenchmark : Date` is a `Nat`
timestamp. -/
structure ModelPerformance where
  speed : Nat
  accuracy : Nat
  latency : Nat
  memoryUsage : Nat
  cpuUsage : Nat
  lastBenchmark : Nat
  deriving Repr, DecidableEq

/-- The `AIModel` interface.  `overallScore` is an `Int` since it is
produced by `Math.round`. -/
structure AIModel where
  id : String
  name : String
  provider : ModelProvider
  version : String
  size : String
  status : ModelStatus
  capabilities : ModelCapabilities
  performance : ModelPerformance
  endpoint : String
  isRecommended : Bool
  bengaliScore : Nat
  overallScore : Int
  deriving Repr, DecidableEq

/-! ## The Scorer (`part_002` lines 236-253 and 349-354)

`Math.round(x)` is `⌊x + 1/2⌋`; the weighted combination is exact rational
arithmetic in the embedding. -/

/-- JavaScript `Math.round` on a (non-negative) rational. -/
def jsRound (q : Rat) : Int := Int.floor (q + 1 / 2)

/-- The composite score formula applied to a performance sample and the
static `bengaliScore` of the model:
`Math.round((speed/60)*25 + (accuracy/100)*35 + (max(0, 100 - latency/10)/100)*20 + (bengaliScore/100)*20)`. -/
def computeOverallScore (perf : ModelPerformance) (bengaliScore : Nat) : Int :=
  jsRound (((perf.speed : Rat) / 60) * 25
    + ((perf.accuracy : Rat) / 100) * 35
    + (max 0 (100 - (perf.latency : Rat) / 10) / 100) * 20
    + ((bengaliScore : Rat) / 100) * 20)

/-- The performance sample `testModel` fabricates on a successful probe.
The four hidden `Math.random()` draws are embedded as natural numbers
`d`, reduced to the ranges of the source (`speed` 10-59, `accuracy` 80-99,
`memoryUsage` 1000-4999, `cpuUsage` 20-79); `latency` is the measured
probe latency and `now` the `new Date()` timestamp. -/
def mkPerf (d : Nat × Nat × Nat × Nat) (latency : Nat) (now : Nat) :
    ModelPerformance :=
  { speed := d.1 % 50 + 10
    accuracy := d.2.1 % 20 + 80
    latency := latency
    memoryUsage := d.2.2.1 % 4000 + 1000
    cpuUsage := d.2.2.2 % 60 + 20
    lastBenchmark := now }

/-- The `overallScore` a `testModel` success path stores, as a function of
the model, the hidden random draws `d`, the measured latency and the
timestamp. -/
def scoreFromDraw (m : AIModel) (d : Nat × Nat × Nat × Nat) (latency now : Nat) :
    Int :=
  computeOverallScore (mkPerf d latency now) m.bengaliScore

/-! ## testModel probe timing and outcome (`part_002` lines 199-283)

The underlying network behaviour of each probe is explicit data: `delay` is
when the underlying fetch would settle, `response = none` means it
rejects (network error), `response = some b` that it resolves with
`response.ok = b`; `cloudOk` is the openai branch `Math.random() > 0.5`
draw.  The `AbortController` fires at 5000 ms, so a fetch-based probe runs
for `min delay 5000` and is recorded as a failure (`status = "error"`)
when `delay` exceeds the timeout; the openai branch sleeps 1000 ms; the
`anthropic`/`local` providers match no branch, leave `response` null and
fail immediately. -/

/-- Underlying behaviour of one probe. -/
structure ProbeEnv where
  delay : Nat
  response : Option Bool
  cloudOk : Bool
  deriving Repr, DecidableEq

/-- Providers probed through a real `fetch` (ollama, lmstudio,
zombiecoder). -/
def isFetchKind : ModelProvider → Bool
  | .ollama => true
  | .lmstudio => true
  | .zombiecoder => true
  | .openai => false
  | .anthropic => false
  | .localModel => false

/-- Wall-clock duration of one `testModel` probe. -/
def probeDuration (m : AIModel) (e : ProbeEnv) : Nat :=
  match m.provider with
  | .openai => 1000
  | .anthropic => 0
  | .localModel => 0
  | _ => min e.delay 5000

/-- Whether the probe returns `true` (model available). -/
def probeOk (m : AIModel) (e : ProbeEnv) : Bool :=
  match m.provider with
  | .openai => e.cloudOk
  | .anthropic => false
  | .localModel => false
  | _ => decide (e.delay ≤ 5000) && (e.response == some true)

/-- The status `testModel` stores for the probed model. -/
def probeStatus (m : AIModel) (e : ProbeEnv) : ModelStatus :=
  if probeOk m e then .available else .error

/-- The per-model record a scan produces (id, returned boolean, stored
status, wall-clock duration of the probe). -/
structure ScanEntry where
  modelId : String
  ok : Bool
  status : ModelStatus
  duration : Nat
  deriving Repr, DecidableEq

/-- `Promise.allSettled(models.map(testModel))`: one entry per registered
model, failures alongside successes, in registry order. -/
def scanResults (ms : List AIModel) (es : List ProbeEnv) : List ScanEntry :=
  (ms.zip es).map (fun p =>
    { modelId := p.1.id
      ok := probeOk p.1 p.2
      status := probeStatus p.1 p.2
      duration := probeDuration p.1 p.2 })

/-- Elapsed wall-clock time of the concurrent scan: all probes run in
parallel and `allSettled` resolves when the slowest one settles. -/
def scanElapsed (ms : List AIModel) (es : List ProbeEnv) : Nat :=
  (ms.zip es).foldr (fun p acc => max (probeDuration p.1 p.2) acc) 0

/-! ## scanModels selection (`part_002` lines 286-315)

`models.filter((_, i) => results[i] fulfilled with true)` then
`availableModels.sort((a, b) => filterBengali ? b.bengaliScore - a.bengaliScore
: b.overallScore - a.overallScore)[0]`.  The comparator keeps `a` no later
than `b` exactly when the key of `b` is `≤` the key of `a`, so the stable sort is
`insertionSort` with the corresponding `≥`-by-key relation.  Note the sort
reads the closure-captured model records, i.e. their scores from before
the updates of this scan itself. -/

/-- Models whose probe returned `true`, in registry order. -/
def availableModels (ms : List AIModel) (rs : List Bool) : List AIModel :=
  ((ms.zip rs).filter (fun p => p.2)).map (fun p => p.1)

/-- Descending-`bengaliScore` comparator relation. -/
def bengaliGE (a b : AIModel) : Prop := b.bengaliScore ≤ a.bengaliScore

instance : DecidableRel bengaliGE := fun a b => Nat.decLe b.bengaliScore a.bengaliScore

instance : IsTotal AIModel bengaliGE := ⟨fun a b => Nat.le_total b.bengaliScore a.bengaliScore⟩

instance : IsTrans AIModel bengaliGE := ⟨fun _ _ _ h h' => Nat.le_trans h' h⟩

/-- Descending-`overallScore` comparator relation. -/
def overallGE (a b : AIModel) : Prop := b.overallScore ≤ a.overallScore

instance : DecidableRel overallGE := fun a b => Int.decLe b.overallScore a.overallScore

instance : IsTotal AIModel overallGE := ⟨fun a b => Int.le_total b.overallScore a.overallScore⟩

instance : IsTrans AIModel overallGE := ⟨fun _ _ _ h h' => Int.le_trans h' h⟩

/-- The model a `scanModels` pass selects (`null` when no model is
available). -/
def scanModelsSelect (ms : List AIModel) (rs : List Bool)
    (filterBengali : Bool) : Option AIModel :=
  if filterBengali then
    (List.insertionSort bengaliGE (availableModels ms rs)).head?
  else
    (List.insertionSort overallGE (availableModels ms rs)).head?

/-! ## selectModel (`part_002` lines 375-384) -/

/-- `selectModel(model)`: makes the model active only when its status is
`"available"`; otherwise the active model is unchanged. -/
def selectModelOp (active : Option AIModel) (m : AIModel) : Option AIModel :=
  if m.status = .available then some m else active

/-! ## Concrete sample builders (for witnesses and counterexamples) -/

/-- Build an `MCPProvider` record with the fields the engine reads. -/
def mkProvider (i : String) (ty : ProviderType) (st : MCPStatus) (lat : Nat)
    (prio fb : Nat) : MCPProvider :=
  { id := i, name := i, type := ty, endpoint := i, status := st,
    capabilities := [], latency := lat, lastPing := 0, version := "1.0",
    priority := prio, fallbackOrder := fb }

/-- Build an `AIModel` record with the fields the engine reads. -/
def mkModel (i : String) (pr : ModelProvider) (bsup : Bool) (bscore : Nat)
    (oscore : Int) : AIModel :=
  { id := i, name := i, provider := pr, version := "1.0", size := "7B",
    status := .offline,
    capabilities :=
      { textGeneration := true, codeCompletion := true, translation := true,
        bengaliSupport := bsup, voiceProcessing := false,
        imageAnalysis := false, reasoning := true },
    performance :=
      { speed := 0, accuracy := 0, latency := 0, memoryUsage := 0,
        cpuUsage := 0, lastBenchmark := 0 },
    endpoint := i, isRecommended := false, bengaliScore := bscore,
    overallScore := oscore }

/-! ## Generic lemmas about the embedded stable sort -/

/-- The head of an insertion sort under a total, transitive, reflexive
relation is related to every element of the input list. -/
theorem head_rel_of_sort {α : Type} (r : α → α → Prop) [DecidableRel r]
    [IsTotal α r] [IsTrans α r] (hrefl : ∀ a, r a a) {l : List α} {x y : α}
    (hx : (List.insertionSort r l).head? = some x) (hy : y ∈ l) : r x y := by
  have hs := List.sorted_insertionSort r l
  have hy2 : y ∈ List.insertionSort r l := (List.mem_insertionSort r).2 hy
  rcases hsort : List.insertionSort r l with _ | ⟨a, t⟩
  · rw [hsort] at hy2; cases hy2
  · rw [hsort] at hx hy2 hs
    have hax : a = x := by simpa using hx
    subst hax
    rcases List.mem_cons.mp hy2 with h1 | h2
    · subst h1; exact hrefl y
    · exact List.rel_of_sorted_cons hs y h2

/-! ## Claim theorems -/

def c2P : MCPProvider := mkProvider ("unreachable-1") .localType .disconnected 0 1 1

def c2M : AIModel := mkModel ("unreachable-m") .ollama true 95 0

/-- Claim C2: when no endpoint probes as reachable (every probe returned
`false`), both the provider Selector (`scanProviders`) and the model
Selector (`scanModels`) set the Selection to `none` and return normally;
the embedding is a total function, so `none` is an ordinary value, not an
error. -/
theorem empty_scan_yields_null (ps : List MCPProvider) (rs : List ProbeR)
    (ms : List AIModel) (bs : List Bool) (fb : Bool)
    (hrs : ∀ r ∈ rs, r.ok = false) (hbs : ∀ b ∈ bs, b = false) :
    scanProvidersSelect ps rs = none ∧ scanModelsSelect ms bs fb = none := by
  have hcp : connectedProviders ps rs = [] := by
    unfold connectedProviders
    have : (ps.zip rs).filter (fun pr => pr.2.ok) = [] := by
      rw [List.filter_eq_nil_iff]
      intro pr hm
      have h2 := (List.of_mem_zip hm).2
      simp [hrs _ h2]
    rw [this]; rfl
  have hcm : availableModels ms bs = [] := by
    unfold availableModels
    have : (ms.zip bs).filter (fun p => p.2) = [] := by
      rw [List.filter_eq_nil_iff]
      intro pr hm
      have h2 := (List.of_mem_zip hm).2
      simp [hbs _ h2]
    rw [this]; rfl
  constructor
  · unfold scanProvidersSelect
    rw [hcp]; rfl
  · unfold scanModelsSelect
    rw [hcm]
    cases fb <;> rfl

/-- Witness for C2 at a concrete one-element registry on each side. -/
theorem empty_scan_yields_null_witness :
    scanProvidersSelect [c2P] [⟨false, 0, 0⟩] = none ∧
    scanModelsSelect [c2M] [false] true = none :=
  empty_scan_yields_null [c2P] [⟨false, 0, 0⟩] [c2M] [false] true
    (by decide) (by decide)

def c3A : MCPProvider := mkProvider ("prio1-score40") .localType .disconnected 40 1 1

def c3B : MCPProvider := mkProvider ("prio2-score90") .localType .disconnected 90 2 2

/-- Claim C3: priority dominates every other attribute in the provider
Selector: the static priority of the selected provider is `≤` the priority of
every provider whose probe succeeded, whatever their latencies or other
fields — the sort comparator reads only `priority`. -/
theorem priority_dominates (ps : List MCPProvider) (rs : List ProbeR)
    (p q : MCPProvider) (hsel : scanProvidersSelect ps rs = some p)
    (hq : q ∈ connectedProviders ps rs) : p.priority ≤ q.priority := by
  unfold scanProvidersSelect at hsel
  exact head_rel_of_sort priorLE (fun a => Nat.le_refl a.priority) hsel hq

/-- Witness for C3: two reachable providers, priority 1 with probe
latency 40 against priority 2 with probe latency 90; the pass selects the
priority-1 provider. -/
theorem priority_dominates_witness :
    scanProvidersSelect [c3A, c3B] [⟨true, 40, 0⟩, ⟨true, 90, 0⟩] = some c3A ∧
    c3A.priority ≤ c3B.priority :=
  ⟨by decide,
   priority_dominates [c3A, c3B] [⟨true, 40, 0⟩, ⟨true, 90, 0⟩] c3A c3B
     (by decide) (List.Mem.tail c3A (List.Mem.head []))⟩

/-- Claim C6: `testConnection` returns a plain value on every control
path — the embedding into `Except` never produces `Except.error` — and
when the underlying check of a local (fetch-probed) provider raises (the
fetch rejects), the outcome is the `error` status with a `false` return,
delivered as data to the caller. -/
theorem probe_never_throws (p : MCPProvider) (f : Except String Bool)
    (c : Bool) (e : String) :
    (∃ v, testConnectionExc p f c = Except.ok v) ∧
    testConnectionExc { p with type := ProviderType.localType }
      (Except.error e) c = Except.ok (MCPStatus.error, false) := by
  constructor
  · unfold testConnectionExc
    cases p.type with
    | localType =>
      cases f with
      | ok b => cases b <;> exact ⟨_, rfl⟩
      | error _ => exact ⟨_, rfl⟩
    | remote => exact ⟨_, rfl⟩
    | cloud => cases c <;> exact ⟨_, rfl⟩
  · rfl

def c1A : AIModel := mkModel ("bengali-capable") .zombiecoder true 40 0

def c1B : AIModel := mkModel ("no-bengali-support") .ollama false 60 0

/-- Claim C1 counterexample: with the Bengali domain filter active and a
registry holding a reachable model with `bengaliSupport` (score 40) and a
reachable model without it (score 60), `scanModels` selects the
non-matching model: the comparator sorts by `bengaliScore` but never
drops non-matching endpoints, so the spec sentence "drop non-matching
endpoints" fails. -/
theorem filter_not_enforced_cex :
    scanModelsSelect [c1A, c1B] [true, true] true = some c1B ∧
    c1B.capabilities.bengaliSupport = false ∧
    c1A.capabilities.bengaliSupport = true ∧
    c1A ∈ availableModels [c1A, c1B] [true, true] := by
  refine ⟨by decide, by decide, by decide, ?_⟩
  exact List.Mem.head [c1B]

/-- Claim C1 (amended): with at least one reachable model, a `scanModels`
pass with the Bengali filter active yields a non-null Selection whose
descriptor probed reachable in this pass and whose `bengaliScore` is
maximal among the reachable models — it need not possess the
`bengaliSupport` capability. -/
theorem scan_selects_reachable_max_bengali (ms : List AIModel)
    (rs : List Bool) (m0 : AIModel) (h0 : m0 ∈ availableModels ms rs) :
    ∃ m, scanModelsSelect ms rs true = some m ∧
      m ∈ availableModels ms rs ∧
      ∀ q ∈ availableModels ms rs, q.bengaliScore ≤ m.bengaliScore := by
  have h0s : m0 ∈ List.insertionSort bengaliGE (availableModels ms rs) :=
    (List.mem_insertionSort bengaliGE).2 h0
  rcases hh : (List.insertionSort bengaliGE (availableModels ms rs)).head? with _ | m
  · rcases hsort : List.insertionSort bengaliGE (availableModels ms rs) with _ | ⟨a, t⟩
    · rw [hsort] at h0s; cases h0s
    · rw [hsort] at hh; cases hh
  · refine ⟨m, ?_, ?_, ?_⟩
    · unfold scanModelsSelect
      simpa using hh
    · have hm : m ∈ List.insertionSort bengaliGE (availableModels ms rs) :=
        List.mem_of_mem_head? (by simp [hh])
      exact (List.mem_insertionSort bengaliGE).1 hm
    · intro q hq
      exact head_rel_of_sort bengaliGE (fun a => Nat.le_refl a.bengaliScore) hh hq

/-- Witness for the amended C1 on the counterexample registry: the pass
selects a reachable model of maximal `bengaliScore`. -/
theorem scan_selects_reachable_max_bengali_witness :
    ∃ m, scanModelsSelect [c1A, c1B] [true, true] true = some m ∧
      m ∈ availableModels [c1A, c1B] [true, true] ∧
      ∀ q ∈ availableModels [c1A, c1B] [true, true],
        q.bengaliScore ≤ m.bengaliScore :=
  scan_selects_reachable_max_bengali [c1A, c1B] [true, true] c1A
    (List.Mem.head [c1B])

def c4M : AIModel := mkModel ("det-model") .zombiecoder true 95 0

/-- Claim C4: the Scorer is deterministic — the stored `overallScore` is a
function of the performance sample (the ProbeResult) and the static
`bengaliScore` of the descriptor alone: two probe invocations whose hidden random
draws, latencies and timestamps produce the same `ModelPerformance`
sample always produce the same composite score. -/
theorem scorer_deterministic (m : AIModel) (d d2 : Nat × Nat × Nat × Nat)
    (lat lat2 t t2 : Nat) (h : mkPerf d lat t = mkPerf d2 lat2 t2) :
    scoreFromDraw m d lat t = scoreFromDraw m d2 lat2 t2 := by
  unfold scoreFromDraw
  rw [h]

/-- Witness for C4: two distinct hidden random draws that yield the same
performance sample yield the same score. -/
theorem scorer_deterministic_witness :
    mkPerf (0, 0, 0, 0) 100 5 = mkPerf (50, 20, 4000, 60) 100 5 ∧
    scoreFromDraw c4M (0, 0, 0, 0) 100 5
      = scoreFromDraw c4M (50, 20, 4000, 60) 100 5 :=
  ⟨by decide, scorer_deterministic c4M _ _ _ _ _ _ (by decide)⟩

/-- Every individual probe is wall-clock bounded by the 5000 ms per-probe
timeout (the openai simulation sleeps 1000 ms; unmatched providers fail
immediately). -/
theorem probeDuration_le (m : AIModel) (e : ProbeEnv) :
    probeDuration m e ≤ 5000 := by
  unfold probeDuration
  cases m.provider <;> simp [Nat.min_le_right]

def c5H : AIModel := mkModel ("hung-ollama") .ollama false 30 0

/-- Claim C5 counterexample: a probe whose underlying check hangs past
the 5000 ms per-probe timeout is recorded with status `error` — the
status enumeration of the source has no `timed-out` value at all, and the
scan has no separate global-deadline parameter. -/
theorem no_timed_out_marking_cex :
    scanResults [c5H] [⟨10000, some true, false⟩]
      = [{ modelId := "hung-ollama", ok := false,
           status := ModelStatus.error, duration := 5000 }] ∧
    ∀ s : ModelStatus,
      s = ModelStatus.available ∨ s = ModelStatus.loading ∨
      s = ModelStatus.error ∨ s = ModelStatus.offline := by
  constructor
  · decide
  · intro s; cases s <;> simp

/-- Claim C5 (amended): a `scanModels` pass returns exactly one result
per registered model (failures alongside successes, none dropped), its
total wall-clock time is bounded by the 5000 ms per-probe timeout — the
only deadline the source has — however slow any underlying checks are,
and a fetch-probed model whose check exceeds the timeout is recorded as
a failure with status `error` after exactly 5000 ms. -/
theorem scan_complete_and_bounded (ms : List AIModel) (es : List ProbeEnv)
    (h : es.length = ms.length) :
    (scanResults ms es).length = ms.length ∧
    scanElapsed ms es ≤ 5000 ∧
    ∀ pe ∈ ms.zip es, isFetchKind pe.1.provider = true →
      5000 < pe.2.delay →
      probeStatus pe.1 pe.2 = ModelStatus.error ∧
      probeDuration pe.1 pe.2 = 5000 := by
  refine ⟨?_, ?_, ?_⟩
  · simp [scanResults, h]
  · unfold scanElapsed
    induction ms.zip es with
    | nil => simp
    | cons pe t ih =>
      simp only [List.foldr]
      exact max_le (probeDuration_le pe.1 pe.2) ih
  · intro pe _ hk hd
    have hok : probeOk pe.1 pe.2 = false := by
      unfold probeOk
      cases hp : pe.1.provider <;> simp [isFetchKind, hp] at hk ⊢ <;>
        intro hle <;> omega
    constructor
    · unfold probeStatus
      rw [hok]
      rfl
    · unfold probeDuration
      cases hp : pe.1.provider <;> simp [isFetchKind, hp] at hk ⊢ <;>
        omega

def c5M1 : AIModel := mkModel ("hang-model") .lmstudio false 10 0

def c5M2 : AIModel := mkModel ("fast-model") .zombiecoder true 95 0

/-- Witness for the amended C5: two registered models, one hanging for
10 s and one answering in 50 ms; the scan returns two results, finishes
within 5000 ms, and records the hung probe as `error` after 5000 ms. -/
theorem scan_complete_and_bounded_witness :
    (scanResults [c5M1, c5M2]
        [⟨10000, some true, false⟩, ⟨50, some true, false⟩]).length = 2 ∧
    scanElapsed [c5M1, c5M2]
        [⟨10000, some true, false⟩, ⟨50, some true, false⟩] ≤ 5000 ∧
    probeStatus c5M1 ⟨10000, some true, false⟩ = ModelStatus.error ∧
    probeDuration c5M1 ⟨10000, some true, false⟩ = 5000 := by
  have h := scan_complete_and_bounded [c5M1, c5M2]
    [⟨10000, some true, false⟩, ⟨50, some true, false⟩] (by decide)
  refine ⟨h.1, h.2.1, ?_, ?_⟩
  · exact (h.2.2 (c5M1, ⟨10000, some true, false⟩)
      (List.Mem.head _) (by decide) (by decide)).1
  · exact (h.2.2 (c5M1, ⟨10000, some true, false⟩)
      (List.Mem.head _) (by decide) (by decide)).2

/-- The `providers` component written by `disconnectProvider` is the same
by-id status map in every branch. -/
theorem disconnect_providers_eq (s : MCPState) (pid : String) :
    (disconnectProvider s pid).providers
      = setStatusById s.providers pid .disconnected := by
  unfold disconnectProvider
  cases s.activeProvider with
  | none => rfl
  | some a => by_cases h : a.id = pid <;> simp [h]

/-- Claim C10: `disconnectProvider` changes only the named provider record and only its
status field (every other provider record is untouched, and the named
one keeps all other fields); the Selection is cleared exactly when the
named id is the active one, and an absent Selection stays absent. -/
theorem disconnect_frame (s : MCPState) (pid : String) :
    ((disconnectProvider s pid).providers.length = s.providers.length) ∧
    (∀ (i : Nat) (p : MCPProvider), s.providers[i]? = some p →
      (p.id ≠ pid → (disconnectProvider s pid).providers[i]? = some p) ∧
      (p.id = pid → (disconnectProvider s pid).providers[i]? =
        some { p with status := MCPStatus.disconnected })) ∧
    (∀ (a : MCPProvider), s.activeProvider = some a →
      (a.id = pid → (disconnectProvider s pid).activeProvider = none) ∧
      (a.id ≠ pid → (disconnectProvider s pid).activeProvider = some a)) ∧
    (s.activeProvider = none →
      (disconnectProvider s pid).activeProvider = none) := by
  refine ⟨?_, ?_, ?_, ?_⟩
  · rw [disconnect_providers_eq]
    unfold setStatusById
    exact List.length_map _ _
  · intro i p hp
    rw [disconnect_providers_eq]
    unfold setStatusById
    rw [List.getElem?_map, hp]
    constructor
    · intro hne; simp [hne]
    · intro heq; simp [heq]
  · intro a ha
    simp only [disconnectProvider, ha]
    constructor
    · intro heq; simp [heq]
    · intro hne; simp [hne]
  · intro h
    simp only [disconnectProvider, h]

def c10A : MCPProvider := mkProvider ("keep-active") .localType .connected 10 1 1

def c10B : MCPProvider := mkProvider ("to-disconnect") .localType .connected 20 2 2

def c10S : MCPState := { providers := [c10A, c10B], activeProvider := some c10A }

/-- Witness for C10: disconnecting the non-active provider leaves the
active record and the Selection unchanged; disconnecting the active one
clears the Selection. -/
theorem disconnect_frame_witness :
    (disconnectProvider c10S ("to-disconnect")).providers[0]? = some c10A ∧
    (disconnectProvider c10S ("to-disconnect")).activeProvider = some c10A ∧
    (disconnectProvider c10S ("keep-active")).activeProvider = none := by
  refine ⟨?_, ?_, ?_⟩
  · exact ((disconnect_frame c10S ("to-disconnect")).2.1 0 c10A (by decide)).1
      (by decide)
  · exact ((disconnect_frame c10S ("to-disconnect")).2.2.1 c10A rfl).2 (by decide)
  · exact ((disconnect_frame c10S ("keep-active")).2.2.1 c10A rfl).1 (by decide)

def c7A : MCPProvider := mkProvider ("active-reprobe-fails") .localType .connected 20 1 1

def c7B : MCPProvider := mkProvider ("healthy-backup") .localType .connected 5 2 2

def c7S : MCPState := { providers := [c7A, c7B], activeProvider := some c7A }

/-- Claim C7 counterexample: a periodic health-check tick whose re-probe
of the active descriptor fails marks that provider `error` but performs
no Scanner+Scorer+Selector pass and leaves the previous Selection in
place — the Selection is not replaced, even though a healthy backup is
registered and connected. -/
theorem no_reselect_on_failure_cex :
    (healthCheckTick c7S ⟨false, 0, 7⟩).activeProvider = some c7A ∧
    (healthCheckTick c7S ⟨false, 0, 7⟩).providers.map (fun p => (p.id, p.status))
      = [("active-reprobe-fails", MCPStatus.error),
         ("healthy-backup", MCPStatus.connected)] := by
  constructor
  · rfl
  · decide

/-- Claim C7 (amended): on each interval the monitor re-probes only the
active descriptor — every other provider record is untouched and nothing
runs when the Selection is null — and it never changes the Selection:
`activeProvider` is identical before and after the tick, whether the
re-probe succeeds or fails. -/
theorem monitor_reprobes_active_only (s : MCPState) (r : ProbeR) :
    (healthCheckTick s r).activeProvider = s.activeProvider ∧
    (∀ (a : MCPProvider), s.activeProvider = some a →
      ∀ (i : Nat) (p : MCPProvider), s.providers[i]? = some p →
      p.id ≠ a.id → (healthCheckTick s r).providers[i]? = some p) ∧
    (s.activeProvider = none → healthCheckTick s r = s) := by
  refine ⟨?_, ?_, ?_⟩
  · unfold healthCheckTick
    cases h : s.activeProvider with
    | none => exact h
    | some a => rfl
  · intro a ha i p hp hne
    simp only [healthCheckTick, ha]
    show (applyProbeById s.providers a.id r)[i]? = some p
    unfold applyProbeById
    rw [List.getElem?_map, hp]
    simp [hne]
  · intro h
    simp only [healthCheckTick, h]

def c7WA : MCPProvider := mkProvider ("watched-active") .localType .connected 8 1 1

def c7WB : MCPProvider := mkProvider ("idle-other") .localType .connected 9 2 2

def c7WS : MCPState := { providers := [c7WA, c7WB], activeProvider := some c7WA }

/-- Witness for the amended C7: a tick re-probing the active provider
leaves the Selection identical and the non-active record untouched. -/
theorem monitor_reprobes_active_only_witness :
    (healthCheckTick c7WS ⟨true, 8, 9⟩).activeProvider = c7WS.activeProvider ∧
    (healthCheckTick c7WS ⟨true, 8, 9⟩).providers[1]? = some c7WB :=
  ⟨(monitor_reprobes_active_only c7WS ⟨true, 8, 9⟩).1,
   (monitor_reprobes_active_only c7WS ⟨true, 8, 9⟩).2.1 c7WA rfl 1 c7WB
     (by decide) (by decide)⟩

def c9A : MCPProvider := mkProvider ("stale-active") .localType .connected 20 1 1

def c9B : MCPProvider := mkProvider ("fresh-backup") .localType .connected 30 2 2

def c9S : MCPState := { providers := [c9A, c9B], activeProvider := some c9A }

/-- Claim C9 counterexample: after a periodic re-probe of the active
descriptor fails, the store records its most recent outcome as `error`,
yet the non-null Selection still points at it — a non-null Selection is
retained against a descriptor whose last report is a failure. -/
theorem stale_selection_retained_cex :
    (healthCheckTick c9S ⟨false, 0, 11⟩).activeProvider = some c9A ∧
    ((healthCheckTick c9S ⟨false, 0, 11⟩).providers.find?
        (fun p => p.id == "stale-active")).map (fun p => p.status)
      = some MCPStatus.error := by
  constructor
  · rfl
  · decide

/-- Claim C9 (amended): the operations that create a Selection only ever
create it against a descriptor whose most recent probe is a success: a
scan pass selects only a provider whose probe in that pass returned
`true`; a successful manual connect selects the just-probed provider;
and a fallback switch selects a provider whose stored status is
`connected`.  (The periodic re-probe, by the counterexample, can retain
a Selection whose descriptor has since failed.) -/
theorem selection_created_reachable (ps : List MCPProvider) (rs : List ProbeR)
    (s : MCPState) (p q fb : MCPProvider) (r : ProbeR) (af : Bool) :
    (scanProvidersSelect ps rs = some p → p ∈ connectedProviders ps rs) ∧
    (r.ok = true → (connectToProvider s q r af).activeProvider = some q) ∧
    ((fallbackCandidates s.providers q.id).head? = some fb → r.ok = false →
      (connectToProvider s q r true).activeProvider = some fb ∧
      fb.status = MCPStatus.connected) := by
  refine ⟨?_, ?_, ?_⟩
  · intro hsel
    unfold scanProvidersSelect at hsel
    have hm : p ∈ List.insertionSort priorLE (connectedProviders ps rs) :=
      List.mem_of_mem_head? (by simp [hsel])
    exact (List.mem_insertionSort priorLE).1 hm
  · intro hok
    unfold connectToProvider
    rw [hok]
    simp
  · intro hfb hok
    unfold connectToProvider
    rw [hok, hfb]
    refine ⟨by simp, ?_⟩
    have hm : fb ∈ fallbackCandidates s.providers q.id :=
      List.mem_of_mem_head? (by simp [hfb])
    unfold fallbackCandidates at hm
    have hm2 := (List.mem_insertionSort fbLE).1 hm
    have hpred := of_decide_eq_true (List.mem_filter.1 hm2).2
    exact hpred.2

def c9WA : MCPProvider := mkProvider ("probed-ok") .localType .connected 10 1 1

def c9WB : MCPProvider := mkProvider ("second-choice") .localType .connected 15 2 2

def c9WS : MCPState := { providers := [c9WA, c9WB], activeProvider := none }

/-- Witness for the amended C9, applying each conjunct at concrete
inputs: the choice of the scan is one of the providers that probed `true`; a
successful manual connect makes the probed provider active; a failed
connect with fallback switches to a stored-`connected` candidate. -/
theorem selection_created_reachable_witness :
    c9WA ∈ connectedProviders [c9WA, c9WB] [⟨true, 10, 1⟩, ⟨true, 15, 1⟩] ∧
    (connectToProvider c9WS c9WB ⟨true, 15, 2⟩ true).activeProvider = some c9WB ∧
    ((connectToProvider c9WS c9WB ⟨false, 0, 3⟩ true).activeProvider = some c9WA ∧
      c9WA.status = MCPStatus.connected) := by
  refine ⟨?_, ?_, ?_⟩
  · exact (selection_created_reachable [c9WA, c9WB]
      [⟨true, 10, 1⟩, ⟨true, 15, 1⟩] c9WS c9WA c9WB c9WA ⟨true, 10, 1⟩ true).1
      (by decide)
  · exact (selection_created_reachable [c9WA, c9WB]
      [⟨true, 10, 1⟩, ⟨true, 15, 1⟩] c9WS c9WA c9WB c9WA ⟨true, 15, 2⟩ true).2.1
      rfl
  · exact (selection_created_reachable [c9WA, c9WB]
      [⟨true, 10, 1⟩, ⟨true, 15, 1⟩] c9WS c9WA c9WB c9WA ⟨false, 0, 3⟩ true).2.2
      (by decide) rfl

/-! ## Selection depends only on ids, priorities and probe results

The store update performed during a scan changes statuses, latencies and
ping times but never an id or a priority, and the selection reads only
ids (implicitly, through positions), priorities and the probe booleans.
This is captured with `List.Forall₂` over the relation "same id, same
priority" and gives Claim C8. -/

/-- Two provider records agreeing on id and static priority. -/
def idPrioEq (p q : MCPProvider) : Prop := p.id = q.id ∧ p.priority = q.priority

theorem idPrioEq_trans {p q u : MCPProvider} (h1 : idPrioEq p q)
    (h2 : idPrioEq q u) : idPrioEq p u :=
  ⟨h1.1.trans h2.1, h1.2.trans h2.2⟩

theorem forall₂_map_self {f : MCPProvider → MCPProvider}
    (hf : ∀ p, idPrioEq p (f p)) :
    ∀ l : List MCPProvider, List.Forall₂ idPrioEq l (l.map f)
  | [] => List.Forall₂.nil
  | p :: t => List.Forall₂.cons (hf p) (forall₂_map_self hf t)

theorem forall₂_idPrio_trans : ∀ {l1 l2 l3 : List MCPProvider},
    List.Forall₂ idPrioEq l1 l2 → List.Forall₂ idPrioEq l2 l3 →
    List.Forall₂ idPrioEq l1 l3 := by
  intro l1 l2 l3 h1 h2
  induction h1 generalizing l3 with
  | nil => cases h2; exact List.Forall₂.nil
  | cons hpq _ ih =>
    cases h2 with
    | cons hqu hrest2 => exact List.Forall₂.cons (idPrioEq_trans hpq hqu) (ih hrest2)

theorem applyProbeById_idPrio (st : List MCPProvider) (i : String)
    (r : ProbeR) : List.Forall₂ idPrioEq st (applyProbeById st i r) := by
  unfold applyProbeById
  apply forall₂_map_self
  intro p
  by_cases h : p.id = i
  · by_cases hr : r.ok = true <;> simp [idPrioEq, h, hr]
  · simp [idPrioEq, h]

theorem foldl_applyProbe_idPrio :
    ∀ (l : List (MCPProvider × ProbeR)) (init : List MCPProvider),
    List.Forall₂ idPrioEq init
      (l.foldl (fun st pr => applyProbeById st pr.1.id pr.2) init)
  | [], _ => List.forall₂_same.2 (fun _ _ => ⟨rfl, rfl⟩)
  | pr :: t, init =>
    forall₂_idPrio_trans (applyProbeById_idPrio init pr.1.id pr.2)
      (foldl_applyProbe_idPrio t _)

theorem scanUpdate_idPrio (ps : List MCPProvider) (rs : List ProbeR) :
    List.Forall₂ idPrioEq ps (scanUpdate ps rs) := by
  unfold scanUpdate
  exact forall₂_idPrio_trans
    (@forall₂_map_self (fun p => { p with status := MCPStatus.connecting })
      (fun _ => ⟨rfl, rfl⟩) ps)
    (foldl_applyProbe_idPrio (ps.zip rs) _)

theorem connectedProviders_nil (ps : List MCPProvider) :
    connectedProviders ps [] = [] := by
  unfold connectedProviders
  simp

theorem connectedProviders_nil_left (rs : List ProbeR) :
    connectedProviders [] rs = [] := by
  unfold connectedProviders
  simp

theorem connectedProviders_cons (p : MCPProvider) (t : List MCPProvider)
    (r : ProbeR) (rt : List ProbeR) :
    connectedProviders (p :: t) (r :: rt)
      = if r.ok then p :: connectedProviders t rt
        else connectedProviders t rt := by
  unfold connectedProviders
  by_cases h : r.ok = true <;> simp [List.filter_cons, h]

theorem connectedProviders_idPrio : ∀ {ps ps2 : List MCPProvider},
    List.Forall₂ idPrioEq ps ps2 → ∀ (rs : List ProbeR),
    List.Forall₂ idPrioEq (connectedProviders ps rs)
      (connectedProviders ps2 rs) := by
  intro ps ps2 h
  induction h with
  | nil =>
    intro rs
    rw [connectedProviders_nil_left]
    exact List.Forall₂.nil
  | cons hpq hrest ih =>
    intro rs
    cases rs with
    | nil =>
      rw [connectedProviders_nil, connectedProviders_nil]
      exact List.Forall₂.nil
    | cons r rt =>
      rw [connectedProviders_cons, connectedProviders_cons]
      by_cases hr : r.ok = true
      · rw [if_pos hr, if_pos hr]
        exact List.Forall₂.cons hpq (ih rt)
      · rw [if_neg hr, if_neg hr]
        exact ih rt

theorem orderedInsert_idPrio {a b : MCPProvider} (hab : idPrioEq a b) :
    ∀ {l l2 : List MCPProvider}, List.Forall₂ idPrioEq l l2 →
    List.Forall₂ idPrioEq (List.orderedInsert priorLE a l)
      (List.orderedInsert priorLE b l2) := by
  intro l l2 h
  induction h with
  | nil => exact List.Forall₂.cons hab List.Forall₂.nil
  | cons hxy hrest ih =>
    rename_i x y t t2
    by_cases hr : priorLE a x
    · have hr2 : priorLE b y := by
        unfold priorLE at hr ⊢
        rw [← hab.2, ← hxy.2]
        exact hr
      simp only [List.orderedInsert, if_pos hr, if_pos hr2]
      exact List.Forall₂.cons hab (List.Forall₂.cons hxy hrest)
    · have hr2 : ¬ priorLE b y := by
        unfold priorLE at hr ⊢
        rw [← hab.2, ← hxy.2]
        exact hr
      simp only [List.orderedInsert, if_neg hr, if_neg hr2]
      exact List.Forall₂.cons hxy ih

theorem insertionSort_idPrio : ∀ {l l2 : List MCPProvider},
    List.Forall₂ idPrioEq l l2 →
    List.Forall₂ idPrioEq (List.insertionSort priorLE l)
      (List.insertionSort priorLE l2) := by
  intro l l2 h
  induction h with
  | nil => exact List.Forall₂.nil
  | cons hxy _ ih =>
    simp only [List.insertionSort]
    exact orderedInsert_idPrio hxy ih

theorem head?_idPrio {l l2 : List MCPProvider}
    (h : List.Forall₂ idPrioEq l l2) :
    Option.map (fun p => (p.id, p.priority)) l.head?
      = Option.map (fun p => (p.id, p.priority)) l2.head? := by
  cases h with
  | nil => rfl
  | cons hxy _ =>
    obtain ⟨h1, h2⟩ := hxy
    simp [h1, h2]

/-- Claim C8: selection is idempotent over fixed probe results — running
the Selector a second time, on the store the first pass produced, with
the same probe results, yields the same Selection (same descriptor id
and same static priority, hence the same justifying probe result and
score): the status and latency writes of the first pass never change what the
Selector reads. -/
theorem selector_idempotent (ps : List MCPProvider) (rs : List ProbeR) :
    Option.map (fun p => (p.id, p.priority))
        (scanProvidersSelect (scanUpdate ps rs) rs)
      = Option.map (fun p => (p.id, p.priority)) (scanProvidersSelect ps rs) :=
  (head?_idPrio (insertionSort_idPrio
    (connectedProviders_idPrio (scanUpdate_idPrio ps rs) rs))).symm

end ZombieCoder
